import Mathlib

/-!
Shallow embedding of the OTMP (Oblivious Transfer Message Protocol) core of
the oblivious_transfer repository: validated value types (Username,
UserMessage), the wire codec for framed messages, the OT crypto state
machine over the P-256 group, and the per-peer packet handlers plus the
host facade of the network task.

Bytes are modelled as natural numbers (each < 256 in the source buffers),
byte strings as lists of naturals.  Rust panics are modelled as the value
none of an Option-wrapped result.  Functionality provided by external
crates (p256 point encoding and validation, SHA-256, AES-256-CBC, tokio
channels) is either taken as an explicit function parameter constrained by
the hypotheses the specification states for it, or modelled from the
specification, as flagged in the doc comments.
-/

namespace OTMP

/-- Returns true when the byte is a UTF-8 continuation byte (0x80 ..= 0xBF). -/
def isCont (b : Nat) : Bool := 128 ≤ b && b ≤ 191

/-- UTF-8 validity of a byte sequence, mirroring the byte-range table used by
Rust String::from_utf8: ASCII, 2-byte lead bytes 0xC2..=0xDF, the four
3-byte shapes (with the special second-byte ranges for 0xE0 and 0xED that
exclude overlong forms and surrogates), and the three 4-byte shapes (with
the special ranges for 0xF0 and 0xF4 bounding the code point by U+10FFFF). -/
def validUtf8 : List Nat → Bool
  | [] => true
  | b :: rest =>
    if b ≤ 127 then validUtf8 rest
    else if b ≤ 193 then false
    else if b ≤ 223 then
      match rest with
      | b1 :: r => isCont b1 && validUtf8 r
      | [] => false
    else if b = 224 then
      match rest with
      | b1 :: b2 :: r => (160 ≤ b1 && b1 ≤ 191) && isCont b2 && validUtf8 r
      | _ => false
    else if b ≤ 236 then
      match rest with
      | b1 :: b2 :: r => isCont b1 && isCont b2 && validUtf8 r
      | _ => false
    else if b = 237 then
      match rest with
      | b1 :: b2 :: r => (128 ≤ b1 && b1 ≤ 159) && isCont b2 && validUtf8 r
      | _ => false
    else if b ≤ 239 then
      match rest with
      | b1 :: b2 :: r => isCont b1 && isCont b2 && validUtf8 r
      | _ => false
    else if b = 240 then
      match rest with
      | b1 :: b2 :: b3 :: r => (144 ≤ b1 && b1 ≤ 191) && isCont b2 && isCont b3 && validUtf8 r
      | _ => false
    else if b ≤ 243 then
      match rest with
      | b1 :: b2 :: b3 :: r => isCont b1 && isCont b2 && isCont b3 && validUtf8 r
      | _ => false
    else if b = 244 then
      match rest with
      | b1 :: b2 :: b3 :: r => (128 ≤ b1 && b1 ≤ 143) && isCont b2 && isCont b3 && validUtf8 r
      | _ => false
    else false

/-- Error raised by the validating Username conversion (connection.rs). -/
inductive UsernameError where
  | empty
  | tooLong
  deriving DecidableEq

/-- Translation of TryFrom String for Username (connection.rs): the username
byte-length must be between 1 and 100; 0 fails with Empty, above 100 fails
with TooLong.  The argument is the UTF-8 byte content of the input String,
so its UTF-8 validity is a given; only the byte-length is checked here. -/
def usernameNew (value : List Nat) : Except UsernameError (List Nat) :=
  if value.length = 0 then .error .empty
  else if value.length ≤ 100 then .ok value
  else .error .tooLong

/-- Translation of the UserMessage invariant (connection.rs): UTF-8 content of
byte-length at most 1000, as established by TryFrom String for UserMessage. -/
structure UserMessage where
  bytes : List Nat
  h_utf8 : validUtf8 bytes = true
  h_len : bytes.length ≤ 1000

/-- Translation of str::is_char_boundary from the Rust standard library, used
by the byte-slicing expression in UserMessage::insert_text: index 0 is
always a boundary, an in-range index is a boundary when the byte there is
not a continuation byte, and the only valid out-of-range index is the
length itself. -/
def isCharBoundary (s : List Nat) (i : Nat) : Bool :=
  if i = 0 then true
  else
    match s.get? i with
    | some b => b < 128 || 192 ≤ b
    | none => i == s.length

/-- Modelled from the egui TextBuffer implementation for String (external
crate), which inserts the given text at the byte position of the given
character index: continuation bytes are passed over, the text is spliced in
front of the char-index-th character start, or appended at the end when the
string has fewer characters. -/
def insertAtChar (t : List Nat) : List Nat → Nat → List Nat
  | [], _ => t
  | b :: rest, n =>
    if isCont b then b :: insertAtChar t rest n
    else if n = 0 then t ++ b :: rest
    else b :: insertAtChar t rest (n - 1)

/-- Translation of insert_text of the TextBuffer implementation for
UserMessage (connection.rs): the inserted text is truncated by byte slicing
to at most 1000 - len(self) bytes and then inserted at the character index.
The byte slicing panics when the cut index is not a character boundary of
the inserted text; a panic is modelled as none. -/
def insertText (self : List Nat) (text : List Nat) (charIndex : Nat) : Option (List Nat) :=
  let k := min text.length (1000 - self.length)
  if isCharBoundary text k then some (insertAtChar (text.take k) self charIndex)
  else none

/-- Error taxonomy of the cryptography protocol (crypto.rs). -/
inductive CryptoError where
  | invalidMessage
  | invalidPoint
  deriving DecidableEq

/-- Protocol message parse errors (message.rs).  In the source InvalidUtf8
carries the FromUtf8Error cause, which has no observable content beyond the
failure itself and is dropped here; InvalidUsername and InvalidCrypto keep
their causes. -/
inductive MessageError where
  | missingHeaderBytes
  | invalidMagicNumber
  | invalidMessageType
  | invalidMessageLength
  | invalidUtf8
  | invalidUsername (e : UsernameError)
  | invalidCrypto (e : CryptoError)
  deriving DecidableEq

/-- Protocol messages (message.rs).  The curve point type is a parameter: the
point data and its SEC1 byte codec live in the external p256 crate.
Usernames are carried as their UTF-8 bytes. -/
inductive Message (Pt : Type) where
  | broadcastGreet (name : List Nat)
  | broadcastResponse (name : List Nat)
  | broadcastBye
  | greet (pt : Pt)
  | response (pt : Pt)
  | data (m0 m1 : List Nat)
  deriving DecidableEq

/-- Magic bytes b"OTMP" heading every frame. -/
def magicNumber : List Nat := [79, 84, 77, 80]

/-- Big-endian bytes of the Rust expression (n as u16).to_be_bytes(): the
cast wraps modulo 2 ^ 16, the high byte is the quotient by 256 of the
wrapped value and the low byte is n mod 256. -/
def u16be (n : Nat) : List Nat := [n % 65536 / 256, n % 256]

/-- Translation of the frame builder (message.rs, fn buffer): magic number,
type byte, payload length as a wrapping big-endian u16, then the payload. -/
def buffer (typeByte : Nat) (data : List Nat) : List Nat :=
  magicNumber ++ typeByte :: u16be data.length ++ data

/-- Translation of From Message for Vec u8 (message.rs): each variant is
framed by buffer with its type byte; the Data payload is the length of m0
as a wrapping big-endian u16 followed by m0 and then m1.  The curve point
serializer p2b stands for the compressed SEC1 encoder of the p256 crate. -/
def messageIntoBytes {Pt : Type} (p2b : Pt → List Nat) : Message Pt → List Nat
  | .broadcastGreet name => buffer 0 name
  | .broadcastResponse name => buffer 1 name
  | .broadcastBye => buffer 2 []
  | .greet pt => buffer 3 (p2b pt)
  | .response pt => buffer 4 (p2b pt)
  | .data m0 m1 => buffer 5 (u16be m0.length ++ m0 ++ m1)

/-- Type byte assigned to each message variant by the encoder. -/
def msgTypeByte {Pt : Type} : Message Pt → Nat
  | .broadcastGreet _ => 0
  | .broadcastResponse _ => 1
  | .broadcastBye => 2
  | .greet _ => 3
  | .response _ => 4
  | .data _ _ => 5

/-- Payload bytes of each message variant as laid out by the encoder. -/
def msgPayload {Pt : Type} (p2b : Pt → List Nat) : Message Pt → List Nat
  | .broadcastGreet name => name
  | .broadcastResponse name => name
  | .broadcastBye => []
  | .greet pt => p2b pt
  | .response pt => p2b pt
  | .data m0 m1 => u16be m0.length ++ m0 ++ m1

/-- Shared decoding of type 0 and type 1 payloads (message.rs): first
String::from_utf8, failing with InvalidUtf8, then Username::new, failing
with InvalidUsername around the UsernameError cause. -/
def parseUsername (s : List Nat) : Except MessageError (List Nat) :=
  if validUtf8 s then
    match usernameNew s with
    | .ok u => .ok u
    | .error e => .error (.invalidUsername e)
  else .error .invalidUtf8

/-- Translation of TryFrom for Message on a received byte slice (message.rs).
A slice shorter than the 7 header bytes fails with MissingHeaderBytes, a
wrong magic number with InvalidMagicNumber; the declared payload length is
read from bytes 5 and 6 and must equal the remaining length.  Type 2
requires an empty payload; types 3 and 4 delegate the payload to the curve
point decoder b2p (the p256 crate), wrapping its failure in InvalidCrypto;
type 5 reads the two len0 bytes by direct indexing - which in the source
panics when the payload is shorter than 2 bytes, modelled as none - then
checks len0 against the payload length and splits the remainder.  An
unknown type byte fails with InvalidMessageType. -/
def messageTryFrom {Pt : Type} (b2p : List Nat → Except CryptoError Pt) (value : List Nat) :
    Option (Except MessageError (Message Pt)) :=
  match value with
  | b0 :: b1 :: b2 :: b3 :: t :: s1 :: s2 :: rest =>
    if [b0, b1, b2, b3] ≠ magicNumber then some (.error .invalidMagicNumber)
    else
      let size := 256 * s1 + s2
      if rest.length ≠ size then some (.error .invalidMessageLength)
      else
        match t with
        | 0 => some ((parseUsername rest).map .broadcastGreet)
        | 1 => some ((parseUsername rest).map .broadcastResponse)
        | 2 => some (if size = 0 then .ok .broadcastBye else .error .invalidMessageLength)
        | 3 =>
          some (match b2p rest with
            | .ok pt => .ok (.greet pt)
            | .error e => .error (.invalidCrypto e))
        | 4 =>
          some (match b2p rest with
            | .ok pt => .ok (.response pt)
            | .error e => .error (.invalidCrypto e))
        | 5 =>
          match rest with
          | hi :: lo :: tail =>
            let len := 256 * hi + lo
            if len > size - 2 then some (.error .invalidMessageLength)
            else some (.ok (.data (tail.take len) (tail.drop len)))
          | _ => none
        | _ => some (.error .invalidMessageType)
  | _ => some (.error .missingHeaderBytes)

/-- Order of the NIST P-256 group of points, a prime; the group is cyclic
with the standard base point as a generator. -/
def pOrder : Nat := 115792089210356248762697446949407573529996955224135760342422259061068512044369

/-- Secret scalars of the p256 crate, the scalar field of the curve. -/
abbrev Scalar : Type := ZMod pOrder

/-- Modelled from the spec: the P-256 group of points is cyclic of prime
order generated by the standard base point, so a point is embedded as its
discrete logarithm with respect to the generator.  Point addition and
subtraction are addition and subtraction of logarithms; the scalar action
on points is multiplication of logarithms by the scalar. -/
abbrev Point : Type := ZMod pOrder

/-- Standard base point G of P-256 (CurvePoint::GENERATOR), of logarithm 1. -/
def GEN : Point := 1

/-- Scalar multiplication P * s of the p256 crate in the discrete-log
embedding. -/
def pmul (p : Point) (s : Scalar) : Point := p * s

/-- State of the connection cryptography (crypto.rs, enum MessageState). -/
inductive MessageState where
  | greetSent (a : Scalar) (point : Point) (m0 m1 : UserMessage)
  | greetReceived (key : List Nat) (c : Bool)

/-- Translation of MessageState::send_message (crypto.rs).  The source takes
an optional scalar and samples a fresh random one when absent; the sampled
value is the explicit argument a here.  It returns the public point
G * a together with the GreetSent state holding a, the point and both
candidate messages. -/
def sendMessage (m0 m1 : UserMessage) (a : Scalar) : Point × MessageState :=
  (pmul GEN a, .greetSent a (pmul GEN a) m0 m1)

/-- Translation of MessageState::on_greeting (crypto.rs).  The source samples
a random scalar b and a random bit c, both explicit arguments here.  The
response point is point + G * b when c holds and G * b otherwise, and the
stored key is the hash of point * b.  The hash H stands for into_key of the
source: SHA-256 (external sha2 crate) of the uncompressed SEC1 encoding of
the point. -/
def onGreeting (H : Point → List Nat) (point : Point) (b : Scalar) (c : Bool) :
    Point × MessageState :=
  (if c then point + pmul GEN b else pmul GEN b, .greetReceived (H (pmul point b)) c)

/-- Translation of MessageState::on_response (crypto.rs).  In the GreetSent
state the two keys are the hashes of other * a and (other - point) * a, and
the two ciphertexts encrypt m0 and m1 under them; enc key data stands for
Cipher::new_256(key).cbc_encrypt(key, data) of the external libaes crate,
AES-256-CBC with the IV equal to the key.  In the GreetReceived state the
call fails with InvalidMessage. -/
def onResponse (H : Point → List Nat) (enc : List Nat → List Nat → List Nat)
    (st : MessageState) (other : Point) : Except CryptoError (List Nat × List Nat) :=
  match st with
  | .greetSent a point m0 m1 =>
    .ok (enc (H (pmul other a)) m0.bytes, enc (H (pmul (other - point) a)) m1.bytes)
  | .greetReceived _ _ => .error .invalidMessage

/-- Translation of MessageState::on_messages (crypto.rs).  In the
GreetReceived state the ciphertext m1 is selected when c holds and m0
otherwise, decrypted with the stored key - dec key data stands for
Cipher::new_256(key).cbc_decrypt(key, data) of the libaes crate - and the
result must be valid UTF-8, else InvalidMessage.  In the GreetSent state
the call fails with InvalidMessage. -/
def onMessages (dec : List Nat → List Nat → List Nat) (st : MessageState)
    (m0 m1 : List Nat) : Except CryptoError (List Nat) :=
  match st with
  | .greetSent _ _ _ _ => .error .invalidMessage
  | .greetReceived key c =>
    let decoded := dec key (if c then m1 else m0)
    if validUtf8 decoded then .ok decoded else .error .invalidMessage

/-- Socket address: an IP (abstracted to a natural) with a port. -/
structure SockAddr where
  ip : Nat
  port : Nat
  deriving DecidableEq

/-- Peer record of connection.rs: address and optional username bytes. -/
structure Peer where
  address : SockAddr
  name : Option (List Nat)
  deriving DecidableEq

/-- Network error taxonomy (net/mod.rs), restricted to the variants whose
content is observable in this model: the lifecycle errors, codec errors and
the semantic IncorrectMessage carrying the offending address. -/
inductive NetworkError where
  | taskClosed
  | taskPanic
  | messageError (e : MessageError)
  | broadcastAddressNotFound
  | incorrectMessage (addr : SockAddr)
  deriving DecidableEq

/-- Events emitted to the UI (net/mod.rs). -/
inductive Event where
  | error (e : NetworkError)
  | connected (p : Peer)
  | disconnected (addr : SockAddr)
  | message (addr : SockAddr) (text : List Nat)
  deriving DecidableEq

/-- Actions accepted from the UI (net/mod.rs). -/
inductive Action where
  | broadcast
  | disconnect
  | send (addr : SockAddr) (m0 m1 : UserMessage)

/-- Translation of the BroadcastGreet arm of NetworkTask::on_packet
(task.rs): when the resolved local primary IP differs from the IP of the
sending address, emit Connected with the named peer and unicast a
BroadcastResponse carrying the local username back to the sender; when the
IPs are equal, do nothing.  Returned are the emitted events and the sent
messages with their destinations. -/
def onPacketBroadcastGreet (localIp : Nat) (selfName : List Nat) (addr : SockAddr)
    (name : List Nat) : List Event × List (Message Point × SockAddr) :=
  if localIp ≠ addr.ip then
    ([Event.connected ⟨addr, some name⟩], [(Message.broadcastResponse selfName, addr)])
  else ([], [])

/-- Translation of the BroadcastBye arm of NetworkTask::on_packet (task.rs):
emit Disconnected for the sending address exactly when the resolved local
primary IP differs from its IP. -/
def onPacketBroadcastBye (localIp : Nat) (addr : SockAddr) : List Event :=
  if localIp ≠ addr.ip then [Event.disconnected addr] else []

/-- Translation of the Message::Response arm of NetworkTask::on_packet
(task.rs).  The state for the sending address is first removed from the
state map (HashMap::remove); only the slot of that address is modelled
since no other entry is touched.  With no state present the handler fails
with IncorrectMessage; with a state present, on_response either produces
the ciphertext pair that is then sent as a Data message, or its failure is
mapped to IncorrectMessage - in both cases the removed state is not
reinserted.  Returned are the resulting slot and the outcome. -/
def onPacketResponseMsg (H : Point → List Nat) (enc : List Nat → List Nat → List Nat)
    (addr : SockAddr) (st : Option MessageState) (point : Point) :
    Option MessageState × Except NetworkError (List Nat × List Nat) :=
  match st with
  | some state =>
    match onResponse H enc state point with
    | .ok p => (none, .ok p)
    | .error _ => (none, .error (.incorrectMessage addr))
  | none => (none, .error (.incorrectMessage addr))

/-- Translation of the Message::Data arm of NetworkTask::on_packet (task.rs).
The state for the sending address is removed; with no state the handler
fails with IncorrectMessage; otherwise on_messages either yields the
plaintext that is then emitted as Event::Message, or its failure is mapped
to IncorrectMessage - the removed state is never reinserted. -/
def onPacketDataMsg (dec : List Nat → List Nat → List Nat) (addr : SockAddr)
    (st : Option MessageState) (m0 m1 : List Nat) :
    Option MessageState × Except NetworkError (List Nat) :=
  match st with
  | some state =>
    match onMessages dec state m0 m1 with
    | .ok s => (none, .ok s)
    | .error _ => (none, .error (.incorrectMessage addr))
  | none => (none, .error (.incorrectMessage addr))

/-- Modelled from the spec: blocking_send on a bounded tokio mpsc channel
(external crate) succeeds and appends the action while the receiving
network task is alive, and fails with a SendError once the task has exited;
the queue models the channel content. -/
def blockingSend (taskAlive : Bool) (queue : List Action) (a : Action) :
    Except Unit (List Action) :=
  if taskAlive then .ok (queue ++ [a]) else .error ()

/-- Translation of NetworkHost::refresh_hosts (peer.rs): enqueue the
Broadcast action; a SendError converts to TaskClosed through the From
instance of net/mod.rs. -/
def refreshHosts (taskAlive : Bool) (queue : List Action) :
    Except NetworkError (List Action) :=
  match blockingSend taskAlive queue .broadcast with
  | .ok q => .ok q
  | .error _ => .error .taskClosed

/-- Translation of NetworkHost::disconnect (peer.rs): when the channel is not
closed - the task is alive - enqueue the Disconnect action (a SendError
would convert to TaskClosed); then join the task thread, which is modelled
from the spec as failing exactly when the thread panicked, mapped to
TaskPanic.  Returns the final queue on success. -/
def disconnectHost (taskAlive : Bool) (panicked : Bool) (queue : List Action) :
    Except NetworkError (List Action) :=
  match (if taskAlive then blockingSend taskAlive queue .disconnect else .ok queue) with
  | .error _ => .error .taskClosed
  | .ok q => if panicked then .error .taskPanic else .ok q

/-- SEC1 serialization of the identity point of an elliptic curve: the single
byte 0x00. -/
def sec1IdentityEnc : List Nat := [0]

theorem size_field_eq (n : Nat) : 256 * (n % 65536 / 256) + n % 256 = n % 65536 := by
  omega

theorem buffer_eq (t : Nat) (d : List Nat) :
    buffer t d =
      79 :: 84 :: 77 :: 80 :: t :: (d.length % 65536 / 256) :: (d.length % 256) :: d := rfl

theorem messageTryFrom_buffer_type0 {Pt : Type} (b2p : List Nat → Except CryptoError Pt)
    (d : List Nat) (hd : d.length ≤ 65535) :
    messageTryFrom b2p (buffer 0 d) =
      some ((parseUsername d).map Message.broadcastGreet) := by
  have hsz : 256 * (d.length % 65536 / 256) + d.length % 256 = d.length := by omega
  rw [buffer_eq]
  simp [messageTryFrom, magicNumber, hsz]

theorem messageTryFrom_buffer_type1 {Pt : Type} (b2p : List Nat → Except CryptoError Pt)
    (d : List Nat) (hd : d.length ≤ 65535) :
    messageTryFrom b2p (buffer 1 d) =
      some ((parseUsername d).map Message.broadcastResponse) := by
  have hsz : 256 * (d.length % 65536 / 256) + d.length % 256 = d.length := by omega
  rw [buffer_eq]
  simp [messageTryFrom, magicNumber, hsz]

theorem messageTryFrom_buffer_type3 {Pt : Type} (b2p : List Nat → Except CryptoError Pt)
    (d : List Nat) (hd : d.length ≤ 65535) :
    messageTryFrom b2p (buffer 3 d) =
      some (match b2p d with
        | .ok pt => .ok (.greet pt)
        | .error e => .error (.invalidCrypto e)) := by
  have hsz : 256 * (d.length % 65536 / 256) + d.length % 256 = d.length := by omega
  rw [buffer_eq]
  simp [messageTryFrom, magicNumber, hsz]

theorem messageTryFrom_buffer_type4 {Pt : Type} (b2p : List Nat → Except CryptoError Pt)
    (d : List Nat) (hd : d.length ≤ 65535) :
    messageTryFrom b2p (buffer 4 d) =
      some (match b2p d with
        | .ok pt => .ok (.response pt)
        | .error e => .error (.invalidCrypto e)) := by
  have hsz : 256 * (d.length % 65536 / 256) + d.length % 256 = d.length := by omega
  rw [buffer_eq]
  simp [messageTryFrom, magicNumber, hsz]

/-- C6: a BroadcastGreet from an address whose IP equals the resolved local
primary IP produces no event and no reply; otherwise it emits exactly one
Connected event carrying the named peer and unicasts exactly one
BroadcastResponse with the local username back to the sender.  A
BroadcastBye emits Disconnected for the sender exactly when its IP differs
from the local IP. -/
theorem broadcast_handlers_spec (localIp : Nat) (selfName : List Nat) (addr : SockAddr)
    (name : List Nat) :
    onPacketBroadcastGreet localIp selfName addr name =
      (if localIp = addr.ip then ([], [])
       else ([Event.connected ⟨addr, some name⟩],
             [(Message.broadcastResponse selfName, addr)])) ∧
    onPacketBroadcastBye localIp addr =
      (if localIp = addr.ip then [] else [Event.disconnected addr]) := by
  by_cases h : localIp = addr.ip <;>
    simp [onPacketBroadcastGreet, onPacketBroadcastBye, h]

/-- C9: refresh_hosts enqueues the Broadcast action and succeeds while the
network task is alive and fails with TaskClosed once it has exited;
disconnect enqueues Disconnect when the channel is still open, joins the
task thread and fails with TaskPanic exactly when the thread panicked. -/
theorem host_facade_spec (taskAlive panicked : Bool) (queue : List Action) :
    refreshHosts taskAlive queue =
      (if taskAlive then .ok (queue ++ [.broadcast]) else .error .taskClosed) ∧
    disconnectHost taskAlive panicked queue =
      (if panicked then .error .taskPanic
       else .ok (if taskAlive then queue ++ [.disconnect] else queue)) := by
  cases taskAlive <;> cases panicked <;>
    simp [refreshHosts, disconnectHost, blockingSend]

set_option maxRecDepth 8000 in
/-- C7: the incremental insertion edit of UserMessage does not terminate
normally on every input within the invariant; inserting the two-byte UTF-8
character 0xC3 0xA9 into a message of byte-length 999 truncates at byte
index 1, which is not a character boundary of the inserted text, so the
byte slicing in the source panics (modelled as none). -/
theorem insertText_panics_inside_char :
    insertText (List.replicate 999 97) [195, 169] 0 = none := by decide

/-- C3: the frame decoder does not return an error on every received byte
slice; a type-5 Data frame whose declared payload length is consistent with
the slice but smaller than 2 makes the source index past the end of the
slice and panic (modelled as none), for both a 0-byte and a 1-byte
payload. -/
theorem data_frame_short_payload_panics {Pt : Type}
    (b2p : List Nat → Except CryptoError Pt) :
    messageTryFrom b2p [79, 84, 77, 80, 5, 0, 0] = none ∧
    messageTryFrom b2p [79, 84, 77, 80, 5, 0, 1, 0] = none := ⟨rfl, rfl⟩

/-- C2 (amended): a Response or Data packet that does not match the current
OT state for the sending address - no state present, or the state is the
wrong variant - fails with IncorrectMessage for that address; the slot is
unchanged when it was empty, but a wrong-variant state has already been
removed from the map and is no longer present afterwards. -/
theorem mismatched_packet_consumes_state (H : Point → List Nat)
    (enc dec : List Nat → List Nat → List Nat) (addr : SockAddr) (point : Point)
    (key : List Nat) (c : Bool) (a : Scalar) (A : Point) (m0 m1 : UserMessage)
    (cm0 cm1 : List Nat) :
    onPacketResponseMsg H enc addr none point = (none, .error (.incorrectMessage addr)) ∧
    onPacketResponseMsg H enc addr (some (.greetReceived key c)) point =
      (none, .error (.incorrectMessage addr)) ∧
    onPacketDataMsg dec addr none cm0 cm1 = (none, .error (.incorrectMessage addr)) ∧
    onPacketDataMsg dec addr (some (.greetSent a A m0 m1)) cm0 cm1 =
      (none, .error (.incorrectMessage addr)) :=
  ⟨rfl, rfl, rfl, rfl⟩

/-- C2, counterexample to the claim as stated: receiving Response while the
state at the address is the wrong variant GreetReceived fails with
IncorrectMessage, but the state map is mutated - the wrong-variant state
has been removed and is not still present afterwards. -/
theorem mismatched_response_removes_state_cex :
    (onPacketResponseMsg (fun _ => []) (fun _ m => m) ⟨7, 12345⟩
        (some (.greetReceived (List.replicate 32 0) false)) 1).2 =
      .error (.incorrectMessage ⟨7, 12345⟩) ∧
    (onPacketResponseMsg (fun _ => []) (fun _ m => m) ⟨7, 12345⟩
        (some (.greetReceived (List.replicate 32 0) false)) 1).1 = none ∧
    (onPacketResponseMsg (fun _ => []) (fun _ m => m) ⟨7, 12345⟩
        (some (.greetReceived (List.replicate 32 0) false)) 1).1 ≠
      some (.greetReceived (List.replicate 32 0) false) := by
  refine ⟨rfl, rfl, fun h => Option.noConfusion h⟩

theorem messageTryFrom_buffer_type5 {Pt : Type} (b2p : List Nat → Except CryptoError Pt)
    (m0 m1 : List Nat) (hd : 2 + m0.length + m1.length ≤ 65535) :
    messageTryFrom b2p (buffer 5 (u16be m0.length ++ m0 ++ m1)) =
      some (.ok (.data m0 m1)) := by
  have e1 : (u16be m0.length ++ m0 ++ m1).length = 2 + m0.length + m1.length := by
    simp only [u16be, List.length_append, List.length_cons, List.length_nil]
    try omega
  have e2 : u16be m0.length ++ m0 ++ m1 =
      (m0.length % 65536 / 256) :: (m0.length % 256) :: (m0 ++ m1) := rfl
  rw [buffer_eq, e1, e2]
  have hsz : 256 * ((2 + m0.length + m1.length) % 65536 / 256) +
      (2 + m0.length + m1.length) % 256 = 2 + m0.length + m1.length := by omega
  have hlen0 : 256 * (m0.length % 65536 / 256) + m0.length % 256 = m0.length := by omega
  simp only [messageTryFrom, magicNumber, hsz, hlen0, ne_eq, List.cons.injEq,
    List.length_cons, List.length_append]
  rw [if_neg (by simp), if_neg (by omega), if_neg (by omega), List.take_left, List.drop_left]

theorem messageTryFrom_length_overflow {Pt : Type} (b2p : List Nat → Except CryptoError Pt)
    (t : Nat) (d : List Nat) (hd : 65535 < d.length) :
    messageTryFrom b2p (buffer t d) = some (.error .invalidMessageLength) := by
  rw [buffer_eq]
  have hne : d.length ≠ 256 * (d.length % 65536 / 256) + d.length % 256 := by omega
  simp [messageTryFrom, magicNumber, hne]

/-- Side conditions of the codec round-trip claim: usernames are valid UTF-8
of byte-length 1..=100; the Data payload must fit the u16 length field;
BroadcastBye and the point-carrying variants need nothing further, their
payload shape being fixed by the point encoder. -/
def validEnvelope {Pt : Type} : Message Pt → Prop
  | .broadcastGreet name => validUtf8 name = true ∧ 1 ≤ name.length ∧ name.length ≤ 100
  | .broadcastResponse name => validUtf8 name = true ∧ 1 ≤ name.length ∧ name.length ≤ 100
  | .broadcastBye => True
  | .greet _ => True
  | .response _ => True
  | .data m0 m1 => 2 + m0.length + m1.length ≤ 65535

/-- C4: for every message variant whose payload satisfies the stated size
envelope, and any point byte codec with the properties the spec states for
compressed SEC1 on P-256 - decoding inverts encoding and encodings are 33
bytes - decoding the encoding of a message succeeds with a message equal to
the original, and the encoded frame is exactly the magic bytes, the type
byte and the big-endian u16 payload length followed by the payload. -/
theorem codec_roundtrip {Pt : Type} (p2b : Pt → List Nat)
    (b2p : List Nat → Except CryptoError Pt)
    (hpt : ∀ pt, b2p (p2b pt) = .ok pt)
    (hlen : ∀ pt, (p2b pt).length = 33)
    (m : Message Pt) (henv : validEnvelope m) :
    messageTryFrom b2p (messageIntoBytes p2b m) = some (.ok m) ∧
    messageIntoBytes p2b m =
      magicNumber ++ msgTypeByte m :: u16be (msgPayload p2b m).length ++
        msgPayload p2b m := by
  refine ⟨?_, by cases m <;> rfl⟩
  cases m with
  | broadcastGreet name =>
    obtain ⟨hu, h1, h100⟩ := henv
    rw [show messageIntoBytes p2b (Message.broadcastGreet name) = buffer 0 name from rfl,
      messageTryFrom_buffer_type0 b2p name (by omega)]
    have h0 : ¬ name.length = 0 := by omega
    simp [parseUsername, hu, usernameNew, h0, h100, Except.map]
  | broadcastResponse name =>
    obtain ⟨hu, h1, h100⟩ := henv
    rw [show messageIntoBytes p2b (Message.broadcastResponse name) = buffer 1 name from rfl,
      messageTryFrom_buffer_type1 b2p name (by omega)]
    have h0 : ¬ name.length = 0 := by omega
    simp [parseUsername, hu, usernameNew, h0, h100, Except.map]
  | broadcastBye => rfl
  | greet pt =>
    rw [show messageIntoBytes p2b (Message.greet pt) = buffer 3 (p2b pt) from rfl,
      messageTryFrom_buffer_type3 b2p (p2b pt) (by rw [hlen]; omega), hpt]
  | response pt =>
    rw [show messageIntoBytes p2b (Message.response pt) = buffer 4 (p2b pt) from rfl,
      messageTryFrom_buffer_type4 b2p (p2b pt) (by rw [hlen]; omega), hpt]
  | data m0 m1 => exact messageTryFrom_buffer_type5 b2p m0 m1 henv

/-- Concrete point type and byte codec used by witnesses: two points encoded
as compressed-SEC1-shaped 33-byte strings with tag byte 2 or 3, decoding
being the inverse and failing with InvalidPoint on any other input. -/
def p2bW : Bool → List Nat := fun pt => (if pt then 3 else 2) :: List.replicate 32 0

/-- Decoding half of the witness point codec. -/
def b2pW : List Nat → Except CryptoError Bool := fun bs =>
  if bs = 2 :: List.replicate 32 0 then .ok false
  else if bs = 3 :: List.replicate 32 0 then .ok true
  else .error .invalidPoint

theorem codec_roundtrip_witness :
    (∀ pt, b2pW (p2bW pt) = .ok pt) ∧ (∀ pt, (p2bW pt).length = 33) ∧
    validEnvelope (Message.data [1, 2, 3] [4, 5] : Message Bool) ∧
    messageTryFrom b2pW (messageIntoBytes p2bW (.data [1, 2, 3] [4, 5])) =
      some (.ok (.data [1, 2, 3] [4, 5])) :=
  ⟨fun pt => by cases pt <;> rfl, fun pt => by cases pt <;> rfl,
    by norm_num [validEnvelope],
    (codec_roundtrip p2bW b2pW (fun pt => by cases pt <;> rfl)
      (fun pt => by cases pt <;> rfl) (Message.data [1, 2, 3] [4, 5])
      (by norm_num [validEnvelope])).1⟩

/-- C8: Username construction succeeds exactly for byte-lengths 1..=100,
failing with Empty at length 0 and with TooLong above 100; consequently a
BroadcastGreet frame with an empty payload decodes to the InvalidUsername
Empty error, and one with a valid 101-byte UTF-8 payload decodes to the
InvalidUsername TooLong error. -/
theorem username_validation {Pt : Type} (b2p : List Nat → Except CryptoError Pt) :
    (∀ s : List Nat, usernameNew s = .ok s ↔ 1 ≤ s.length ∧ s.length ≤ 100) ∧
    (∀ s : List Nat, usernameNew s = .error .empty ↔ s.length = 0) ∧
    (∀ s : List Nat, usernameNew s = .error .tooLong ↔ 100 < s.length) ∧
    messageTryFrom b2p (buffer 0 []) = some (.error (.invalidUsername .empty)) ∧
    (∀ s : List Nat, validUtf8 s = true → s.length = 101 →
      messageTryFrom b2p (buffer 0 s) = some (.error (.invalidUsername .tooLong))) := by
  refine ⟨?_, ?_, ?_, rfl, ?_⟩
  · intro s
    unfold usernameNew
    split_ifs with h1 h2
    · exact ⟨fun h => by simp at h, fun h => (by omega : False).elim⟩
    · exact ⟨fun _ => ⟨by omega, h2⟩, fun _ => rfl⟩
    · exact ⟨fun h => by simp at h, fun h => (by omega : False).elim⟩
  · intro s
    unfold usernameNew
    split_ifs with h1 h2 <;> simp_all
  · intro s
    unfold usernameNew
    split_ifs with h1 h2 <;> simp_all
  · intro s hu hl
    rw [messageTryFrom_buffer_type0 b2p s (by omega)]
    have h0 : ¬ s.length = 0 := by omega
    have h100 : ¬ s.length ≤ 100 := by omega
    simp [parseUsername, hu, usernameNew, h0, h100, Except.map]

set_option maxRecDepth 2000 in
theorem username_validation_witness :
    validUtf8 (List.replicate 101 97) = true ∧ (List.replicate 101 97).length = 101 ∧
    messageTryFrom b2pW (buffer 0 (List.replicate 101 97)) =
      some (.error (.invalidUsername .tooLong)) :=
  ⟨by decide, by decide,
    (username_validation b2pW).2.2.2.2 (List.replicate 101 97) (by decide) (by decide)⟩

/-- C10: the encoder writes the len0 field of a Data frame as the length of
m0 reduced modulo 2 ^ 16 and the declared payload length field as
2 + len m0 + len m1 reduced modulo 2 ^ 16, as the explicit byte layout
below shows; whenever len m0 or the payload exceeds 65535 the wrapped
fields no longer equal the actual lengths and decoding the encoded frame
fails with InvalidMessageLength, so the round trip only holds within the
u16 envelope. -/
theorem data_encoding_wraps {Pt : Type} (p2b : Pt → List Nat)
    (b2p : List Nat → Except CryptoError Pt) (m0 m1 : List Nat)
    (h : 65535 < m0.length ∨ 65535 < 2 + m0.length + m1.length) :
    messageIntoBytes p2b (.data m0 m1) =
      79 :: 84 :: 77 :: 80 :: 5 :: ((2 + m0.length + m1.length) % 65536 / 256) ::
        ((2 + m0.length + m1.length) % 256) :: (m0.length % 65536 / 256) ::
        (m0.length % 256) :: (m0 ++ m1) ∧
    messageTryFrom b2p (messageIntoBytes p2b (.data m0 m1)) =
      some (.error .invalidMessageLength) := by
  have e1 : (u16be m0.length ++ m0 ++ m1).length = 2 + m0.length + m1.length := by
    simp only [u16be, List.length_append, List.length_cons, List.length_nil]
    try omega
  constructor
  · show buffer 5 (u16be m0.length ++ m0 ++ m1) = _
    rw [buffer_eq, e1]
    rfl
  · show messageTryFrom b2p (buffer 5 (u16be m0.length ++ m0 ++ m1)) = _
    refine messageTryFrom_length_overflow b2p 5 _ ?_
    rw [e1]
    omega

theorem data_encoding_wraps_witness :
    (65535 < (List.replicate 65534 (0 : Nat)).length ∨
      65535 < 2 + (List.replicate 65534 (0 : Nat)).length + ([] : List Nat).length) ∧
    messageTryFrom b2pW (messageIntoBytes p2bW (.data (List.replicate 65534 0) [])) =
      some (.error .invalidMessageLength) :=
  have hw : 65535 < 2 + (List.replicate 65534 (0 : Nat)).length + ([] : List Nat).length := by
    rw [List.length_replicate, List.length_nil]
    norm_num
  ⟨Or.inr hw, (data_encoding_wraps p2bW b2pW (List.replicate 65534 0) [] (Or.inr hw)).2⟩

/-- C1: end-to-end OT correctness.  For any hash H standing for SHA-256 of
the uncompressed point encoding, and any cipher pair enc, dec standing for
AES-256-CBC with IV equal to the key and satisfying the decryption inverse
property, for all secret scalars a and b, both choice bits and all pairs of
user messages (whose byte-length is at most 1000 by the UserMessage
invariant): the initiator computes A and GreetSent, the responder turns A
into B and GreetReceived, the initiator turns B into the ciphertext pair,
and the responder decrypts it to exactly the chosen message - the result
equals if c then m1 else m0, whatever the other message is, so the
plaintext does not depend on the non-chosen message. -/
theorem ot_end_to_end (H : Point → List Nat) (enc dec : List Nat → List Nat → List Nat)
    (hdec : ∀ k m, dec k (enc k m) = m) (a b : Scalar) (c : Bool) (m0 m1 : UserMessage) :
    ∃ c0 c1 : List Nat,
      onResponse H enc (sendMessage m0 m1 a).2
          (onGreeting H (sendMessage m0 m1 a).1 b c).1 = .ok (c0, c1) ∧
      onMessages dec (onGreeting H (sendMessage m0 m1 a).1 b c).2 c0 c1 =
        .ok (if c then m1.bytes else m0.bytes) := by
  cases c with
  | false =>
    refine ⟨_, _, rfl, ?_⟩
    have hk : pmul (pmul GEN a) b = pmul (pmul GEN b) a := by
      simp only [pmul, GEN]
      ring
    show onMessages dec (.greetReceived (H (pmul (pmul GEN a) b)) false)
        (enc (H (pmul (pmul GEN b) a)) m0.bytes)
        (enc (H (pmul (pmul GEN b - pmul GEN a) a)) m1.bytes) = .ok m0.bytes
    simp only [onMessages, Bool.false_eq_true, if_false, hk, hdec, m0.h_utf8, if_true]
  | true =>
    refine ⟨_, _, rfl, ?_⟩
    have hk : pmul (pmul GEN a) b = pmul (pmul GEN a + pmul GEN b - pmul GEN a) a := by
      simp only [pmul, GEN]
      ring
    show onMessages dec (.greetReceived (H (pmul (pmul GEN a) b)) true)
        (enc (H (pmul (pmul GEN a + pmul GEN b) a)) m0.bytes)
        (enc (H (pmul (pmul GEN a + pmul GEN b - pmul GEN a) a)) m1.bytes) = .ok m1.bytes
    simp only [onMessages, if_true, hk, hdec, m1.h_utf8]

/-- Concrete user messages used by the OT witness. -/
def umsgW : UserMessage := ⟨[104, 105], by decide, by decide⟩

/-- Second concrete user message used by the OT witness. -/
def umsgW2 : UserMessage := ⟨[111, 107], by decide, by decide⟩

theorem ot_end_to_end_witness :
    (∀ k m : List Nat,
      (fun (_ : List Nat) (m : List Nat) => m) k
        ((fun (_ : List Nat) (m : List Nat) => m) k m) = m) ∧
    (∃ c0 c1 : List Nat,
      onResponse (fun _ => []) (fun _ m => m) (sendMessage umsgW umsgW2 2).2
          (onGreeting (fun _ => []) (sendMessage umsgW umsgW2 2).1 3 true).1 =
        .ok (c0, c1) ∧
      onMessages (fun _ m => m)
          (onGreeting (fun _ => []) (sendMessage umsgW umsgW2 2).1 3 true).2 c0 c1 =
        .ok (if true then umsgW2.bytes else umsgW.bytes)) :=
  ⟨fun _ _ => rfl,
    ot_end_to_end (fun _ => []) (fun _ m => m) (fun _ m => m) (fun _ _ => rfl)
      2 3 true umsgW umsgW2⟩

theorem messageTryFrom_greet_inv {Pt : Type} (b2p : List Nat → Except CryptoError Pt)
    (value : List Nat) (pt : Pt)
    (h : messageTryFrom b2p value = some (.ok (.greet pt))) :
    ∃ bs, b2p bs = .ok pt := by
  rcases value with _ | ⟨b0, _ | ⟨b1, _ | ⟨b2, _ | ⟨b3, _ | ⟨t, _ | ⟨s1, _ | ⟨s2, rest⟩⟩⟩⟩⟩⟩⟩ <;>
    simp only [messageTryFrom] at h
  pick_goal 8
  · split at h
    · simp at h
    · split at h
      · simp at h
      · split at h
        · rcases hp : parseUsername rest with u | e <;> simp [hp, Except.map] at h
        · rcases hp : parseUsername rest with u | e <;> simp [hp, Except.map] at h
        · split at h <;> simp at h
        · split at h
          case _ pt0 hp =>
            simp only [Option.some.injEq, Except.ok.injEq, Message.greet.injEq] at h
            exact ⟨rest, h ▸ hp⟩
          case _ e hp => simp at h
        · split at h
          case _ pt0 hp => simp at h
          case _ e hp => simp at h
        · split at h
          · split at h <;> simp at h
          · exact Option.noConfusion h
        · simp at h
  all_goals simp at h

theorem messageTryFrom_response_inv {Pt : Type} (b2p : List Nat → Except CryptoError Pt)
    (value : List Nat) (pt : Pt)
    (h : messageTryFrom b2p value = some (.ok (.response pt))) :
    ∃ bs, b2p bs = .ok pt := by
  rcases value with _ | ⟨b0, _ | ⟨b1, _ | ⟨b2, _ | ⟨b3, _ | ⟨t, _ | ⟨s1, _ | ⟨s2, rest⟩⟩⟩⟩⟩⟩⟩ <;>
    simp only [messageTryFrom] at h
  pick_goal 8
  · split at h
    · simp at h
    · split at h
      · simp at h
      · split at h
        · rcases hp : parseUsername rest with u | e <;> simp [hp, Except.map] at h
        · rcases hp : parseUsername rest with u | e <;> simp [hp, Except.map] at h
        · split at h <;> simp at h
        · split at h
          case _ pt0 hp => simp at h
          case _ e hp => simp at h
        · split at h
          case _ pt0 hp =>
            simp only [Option.some.injEq, Except.ok.injEq, Message.response.injEq] at h
            exact ⟨rest, h ▸ hp⟩
          case _ e hp => simp at h
        · split at h
          · split at h <;> simp at h
          · exact Option.noConfusion h
        · simp at h
  all_goals simp at h

/-- C5: with a point decoder satisfying the validation policy the spec states
for the p256 crate - the SEC1 identity encoding, like any payload failing
the curve or parity checks, is rejected with InvalidPoint, and no
successful decode yields the identity point - a type-3 or type-4 frame
whose payload is the identity encoding (or any payload the point decoder
rejects) fails with InvalidPoint wrapped in the codec error, and the frame
decoder never returns a Greet or Response message carrying the identity
point, whatever the received bytes are. -/
theorem point_frames_reject_identity {Pt : Type} (b2p : List Nat → Except CryptoError Pt)
    (idPt : Pt)
    (hid : b2p sec1IdentityEnc = .error .invalidPoint)
    (hnever : ∀ bs pt, b2p bs = .ok pt → pt ≠ idPt) :
    messageTryFrom b2p (buffer 3 sec1IdentityEnc) =
      some (.error (.invalidCrypto .invalidPoint)) ∧
    messageTryFrom b2p (buffer 4 sec1IdentityEnc) =
      some (.error (.invalidCrypto .invalidPoint)) ∧
    (∀ d e, d.length ≤ 65535 → b2p d = .error e →
      messageTryFrom b2p (buffer 3 d) = some (.error (.invalidCrypto e)) ∧
      messageTryFrom b2p (buffer 4 d) = some (.error (.invalidCrypto e))) ∧
    (∀ value pt, messageTryFrom b2p value = some (.ok (.greet pt)) → pt ≠ idPt) ∧
    (∀ value pt, messageTryFrom b2p value = some (.ok (.response pt)) → pt ≠ idPt) := by
  have h34 : ∀ d e, d.length ≤ 65535 → b2p d = .error e →
      messageTryFrom b2p (buffer 3 d) = some (.error (.invalidCrypto e)) ∧
      messageTryFrom b2p (buffer 4 d) = some (.error (.invalidCrypto e)) := by
    intro d e hd hb
    rw [messageTryFrom_buffer_type3 b2p d hd, messageTryFrom_buffer_type4 b2p d hd, hb]
    exact ⟨rfl, rfl⟩
  refine ⟨(h34 _ _ (by decide) hid).1, (h34 _ _ (by decide) hid).2, h34, ?_, ?_⟩
  · intro value pt h
    obtain ⟨bs, hbs⟩ := messageTryFrom_greet_inv b2p value pt h
    exact hnever bs pt hbs
  · intro value pt h
    obtain ⟨bs, hbs⟩ := messageTryFrom_response_inv b2p value pt h
    exact hnever bs pt hbs

/-- Point decoder used by the C5 witness: it accepts exactly one compressed
33-byte encoding, decoding it to the non-identity point false, and rejects
everything else - in particular the identity encoding - with InvalidPoint;
true plays the role of the identity point, which is never returned. -/
def b2pIdW : List Nat → Except CryptoError Bool := fun bs =>
  if bs = 2 :: List.replicate 32 0 then .ok false else .error .invalidPoint

theorem point_frames_reject_identity_witness :
    b2pIdW sec1IdentityEnc = .error .invalidPoint ∧
    messageTryFrom b2pIdW (buffer 3 sec1IdentityEnc) =
      some (.error (.invalidCrypto .invalidPoint)) :=
  have hnever : ∀ bs pt, b2pIdW bs = .ok pt → pt ≠ true := by
    intro bs pt h
    unfold b2pIdW at h
    split at h
    · cases h
      decide
    · exact Except.noConfusion h
  ⟨rfl, (point_frames_reject_identity b2pIdW true rfl hnever).1⟩

end OTMP
